import Mathlib

/-!
Verification development for the ComparativeHealthData pipeline.

The pipeline (process_data.py, split_data.py) is embedded shallowly:
Python dicts become insertion-ordered association lists, Python floats
become exact rationals, Python exceptions become Except values, and the
external tabular inputs (pipe-delimited text, Excel tables) become lists
of row records.  Each definition mirrors one function or code block of
the source.
-/

set_option autoImplicit false

namespace CHD

universe u

/- ===================================================================
   Association lists: the model of Python dicts.
   Python dicts preserve insertion order; assigning to an existing key
   updates the value in place (keeping its position), assigning to a
   fresh key appends it at the end.
   =================================================================== -/

/-- Lookup in an association list (first match; keys built by
alistSet are unique, so this is the dict lookup). -/
def alistGet? {α : Type u} : List (String × α) → String → Option α
  | [], _ => none
  | (k, v) :: t, k' => if k = k' then some v else alistGet? t k'

/-- Python dict assignment d[k] = v: update in place when the key is
present, append at the end otherwise. -/
def alistSet {α : Type u} : List (String × α) → String → α → List (String × α)
  | [], k, v => [(k, v)]
  | (k', v') :: t, k, v =>
      if k' = k then (k, v) :: t else (k', v') :: alistSet t k v

/-- Build a dict from a sequence of assignments, in order. -/
def buildAList {α : Type u} (l : List (String × α)) : List (String × α) :=
  l.foldl (fun acc kv => alistSet acc kv.1 kv.2) []

/- ===================================================================
   Numeric field parsing: the model of Python int(s) and float(s) on
   the pricing extract fields (optional sign, decimal digits, optional
   fraction point).
   =================================================================== -/

/-- Value of a decimal digit character. -/
def digitVal? (c : Char) : Option Nat :=
  if c.isDigit then some (c.toNat - 48) else none

/-- Value of a nonempty all-digit character list. -/
def digitsVal? (cs : List Char) : Option Nat :=
  if cs.isEmpty then none
  else cs.foldlM (fun acc c => (digitVal? c).map (fun d => 10 * acc + d)) 0

/-- Model of Python int(s): optional sign followed by digits; fails on
anything else (ValueError). -/
def parseInt? (s : String) : Option Int :=
  match s.toList with
  | '-' :: rest => (digitsVal? rest).map (fun n => -(n : Int))
  | '+' :: rest => (digitsVal? rest).map (fun n => (n : Int))
  | cs => (digitsVal? cs).map (fun n => (n : Int))

/-- Unsigned decimal numeral with optional fraction point, as an exact
rational. -/
def parseUnsignedFloat? (cs : List Char) : Option Rat :=
  let ip := cs.takeWhile (fun c => c ≠ '.')
  let rest := cs.dropWhile (fun c => c ≠ '.')
  match rest with
  | [] => (digitsVal? ip).map (fun n => (n : Rat))
  | _ :: fp =>
      if fp.contains '.' then none
      else if ip.isEmpty && fp.isEmpty then none
      else do
        let ival ← if ip.isEmpty then some 0 else digitsVal? ip
        let fval ← if fp.isEmpty then some 0 else digitsVal? fp
        some ((ival : Rat) + (fval : Rat) / ((10 : Rat) ^ fp.length))

/-- Model of Python float(s) on monetary fields: optional sign followed
by a decimal numeral; fails on anything else (ValueError). -/
def parseFloat? (s : String) : Option Rat :=
  match s.toList with
  | '-' :: rest => (parseUnsignedFloat? rest).map (fun q => -q)
  | '+' :: rest => parseUnsignedFloat? rest
  | cs => parseUnsignedFloat? cs

/- ===================================================================
   round(x, 2): Python rounds half to even; monetary values are exact
   rationals here, so this is exact round-half-even at two decimals.
   =================================================================== -/

/-- Round a rational to the nearest integer, ties to even. -/
def qRoundHalfEven (q : Rat) : Int :=
  let f : Int := ⌊q⌋
  let frac : Rat := q - (f : Rat)
  if frac < 1 / 2 then f
  else if 1 / 2 < frac then f + 1
  else if f % 2 = 0 then f else f + 1

/-- Model of round(x, 2). -/
def round2 (q : Rat) : Rat := (qRoundHalfEven (q * 100) : Rat) / 100

/- ===================================================================
   Pricing extractor: load_hospital_price_data (process_data.py).
   The pipe-delimited extract is a list of raw rows (string fields as
   produced by csv.DictReader); parsing a field raises on non-blank
   non-numeric text, blank fields become 0.
   =================================================================== -/

/-- One raw line of the pricing extract as csv.DictReader yields it. -/
structure RawRow where
  provnum : String
  category : String
  volume : String
  TotalCharges : String
  TotalCost : String
  TotalPaid : String
  deriving DecidableEq

/-- One parsed pricing row. -/
structure Row where
  provnum : String
  category : String
  volume : Int
  total_charges : Rat
  total_cost : Rat
  total_paid : Rat
  deriving DecidableEq

/-- int(row[v]) if row[v] else 0: a blank field is 0, a non-numeric
field raises (Except.error). -/
def parseIntField (s : String) : Except String Int :=
  if s = "" then Except.ok 0
  else match parseInt? s with
    | some n => Except.ok n
    | none => Except.error ("invalid literal for int: " ++ s)

/-- float(row[f]) if row[f] else 0: a blank field is 0, a non-numeric
field raises (Except.error). -/
def parseFloatField (s : String) : Except String Rat :=
  if s = "" then Except.ok 0
  else match parseFloat? s with
    | some q => Except.ok q
    | none => Except.error ("could not convert string to float: " ++ s)

/-- Field parsing of one row (lines 29-34): the first failing field
aborts the row, and with it the whole run. -/
def parseRow (r : RawRow) : Except String Row := do
  let volume ← parseIntField r.volume
  let tc ← parseFloatField r.TotalCharges
  let tcost ← parseFloatField r.TotalCost
  let tpaid ← parseFloatField r.TotalPaid
  Except.ok ⟨r.provnum, r.category, volume, tc, tcost, tpaid⟩

/-- A raw row on which parsing raises: a non-blank non-numeric volume
or monetary field. -/
def rawRowMalformed (r : RawRow) : Prop :=
  (r.volume ≠ "" ∧ parseInt? r.volume = none)
    ∨ (r.TotalCharges ≠ "" ∧ parseFloat? r.TotalCharges = none)
    ∨ (r.TotalCost ≠ "" ∧ parseFloat? r.TotalCost = none)
    ∨ (r.TotalPaid ≠ "" ∧ parseFloat? r.TotalPaid = none)

instance (r : RawRow) : Decidable (rawRowMalformed r) := by
  unfold rawRowMalformed; infer_instance

/-- The per-procedure breakdown entry stored for one row (lines 36-50
of process_data.py): per-row averages guarded against division by
zero, monetary outputs rounded to 2 decimals at emission. -/
structure ProcStat where
  volume : Int
  total_charges : Rat
  total_cost : Rat
  total_paid : Rat
  avg_charge : Rat
  avg_cost : Rat
  avg_paid : Rat
  deriving DecidableEq

def mkProcStat (r : Row) : ProcStat :=
  let avg_charge : Rat := if 0 < r.volume then r.total_charges / (r.volume : Rat) else 0
  let avg_cost : Rat := if 0 < r.volume then r.total_cost / (r.volume : Rat) else 0
  let avg_paid : Rat := if 0 < r.volume then r.total_paid / (r.volume : Rat) else 0
  { volume := r.volume
    total_charges := round2 r.total_charges
    total_cost := round2 r.total_cost
    total_paid := round2 r.total_paid
    avg_charge := round2 avg_charge
    avg_cost := round2 avg_cost
    avg_paid := round2 avg_paid }

/-- The per-facility accumulator (the defaultdict value). -/
structure HData where
  procedures : List (String × ProcStat)
  total_volume : Int
  total_charges : Rat
  total_cost : Rat
  total_paid : Rat
  deriving DecidableEq

/-- The defaultdict default entry. -/
def emptyHData : HData := ⟨[], 0, 0, 0, 0⟩

/-- One loop iteration applied to a facility entry: store the
procedure breakdown (overwriting the code key) and add the row into
the running totals at full precision. -/
def updateHData (h : HData) (r : Row) : HData :=
  { procedures := alistSet h.procedures r.category (mkProcStat r)
    total_volume := h.total_volume + r.volume
    total_charges := h.total_charges + r.total_charges
    total_cost := h.total_cost + r.total_cost
    total_paid := h.total_paid + r.total_paid }

/-- One loop iteration on the whole hospitals_data dict. -/
def processRow (acc : List (String × HData)) (r : Row) : List (String × HData) :=
  alistSet acc r.provnum (updateHData ((alistGet? acc r.provnum).getD emptyHData) r)

/-- load_hospital_price_data on already-parsed rows: the accumulation
loop of lines 28-56. -/
def load_hospital_price_data (rows : List Row) : List (String × HData) :=
  rows.foldl processRow []

/-- load_hospital_price_data on raw rows: parse each row in stream
order, aborting the whole run on the first parse failure. -/
def load_raw (raws : List RawRow) : Except String (List (String × HData)) :=
  raws.foldlM (fun acc raw => do
    let r ← parseRow raw
    Except.ok (processRow acc r)) []

/-- The rows of the extract belonging to one facility, in order. -/
def rowsFor (rows : List Row) (p : String) : List Row :=
  rows.filter (fun r => r.provnum == p)

/-- Closed form of the accumulator for one facility: the procedure
dict built from its rows in order, and totals summed over every row. -/
def facOf (rs : List Row) : HData :=
  { procedures := buildAList (rs.map (fun r => (r.category, mkProcStat r)))
    total_volume := (rs.map Row.volume).sum
    total_charges := (rs.map Row.total_charges).sum
    total_cost := (rs.map Row.total_cost).sum
    total_paid := (rs.map Row.total_paid).sum }

/- ===================================================================
   Reference loaders (process_data.py lines 61-202).
   Cells of the pandas tables are dynamically typed: integers, floats,
   strings, or NaN (missing).  pd.notna is false exactly on NaN.
   =================================================================== -/

/-- A pandas cell value. vnone is NaN / missing. -/
inductive PyVal : Type where
  | vint : Int → PyVal
  | vfloat : Rat → PyVal
  | vstr : String → PyVal
  | vnone : PyVal
  deriving DecidableEq

/-- Model of Python str.strip(): drop whitespace from both ends
(character-list based, so that it evaluates inside the kernel). -/
def pyStrip (s : String) : String :=
  String.mk
    (((s.toList.dropWhile Char.isWhitespace).reverse.dropWhile
        Char.isWhitespace).reverse)

/-- Model of pd.notna. -/
def notna : PyVal → Bool
  | PyVal.vnone => false
  | _ => true

/-- Model of Python str() on a cell.  str of NaN is the literal text
nan.  Python prints an integral float with a trailing .0; the repr of
a non-integral float is not modelled exactly (no claim depends on it)
and is rendered as the rational numeral. -/
def pyStr : PyVal → String
  | PyVal.vint n => toString n
  | PyVal.vfloat q => if q.den = 1 then toString q.num ++ ".0" else toString q
  | PyVal.vstr s => s
  | PyVal.vnone => "nan"

/-- Model of Python int() on a numeric cell (truncation toward zero
for floats).  int() of a non-numeric string raises in Python; the
loaders only apply this to the numeric beds_total column, so the
string case is rendered as parseInt? with default 0. -/
def pyToInt : PyVal → Int
  | PyVal.vint n => n
  | PyVal.vfloat q => if 0 ≤ q then ⌊q⌋ else ⌈q⌉
  | PyVal.vstr s => (parseInt? s).getD 0
  | PyVal.vnone => 0

/-- CMS hospital type code table (lines 66-81).  The source lists each
code twice, as an int key and as a float key; Python dict hashing
identifies 1 and 1.0, so the table is keyed by the numeric value. -/
def hospital_type_codes : List (Rat × String) :=
  [(1, "Short-Term Acute"),
   (2, "Psychiatric"),
   (4, "Rehabilitation"),
   (5, "Religious Non-Medical"),
   (6, "Childrens"),
   (7, "Critical Access"),
   (11, "Long Term Care")]

/-- CMS ownership type code table (lines 84-105), keyed by strings. -/
def ownership_codes : List (String × String) :=
  [("01", "Government, Federal"),
   ("02", "Government, State"),
   ("03", "Government, Local"),
   ("04", "Government, Hospital District"),
   ("05", "Government, City/County"),
   ("06", "Voluntary Non-Profit, Church"),
   ("07", "Voluntary Non-Profit, Private"),
   ("08", "Voluntary Non-Profit, Other"),
   ("09", "Proprietary, Individual"),
   ("10", "Proprietary, Partnership"),
   ("11", "Proprietary, Corporation"),
   ("12", "Proprietary, Limited Liability Company"),
   ("13", "Voluntary Non-Profit, Private"),
   ("1A", "Government, Federal"),
   ("1B", "Government, State"),
   ("1C", "Government, Local"),
   ("2A", "Voluntary Non-Profit, Church"),
   ("2B", "Voluntary Non-Profit, Other"),
   ("2C", "Voluntary Non-Profit, Private"),
   ("30", "Government, Other")]

/-- Numeric lookup in the hospital type table. -/
def htLookup (q : Rat) : String :=
  ((hospital_type_codes.find? (fun kv => kv.1 == q)).map Prod.snd).getD ""

/-- hospital_type_map.get(code) if pd.notna(code) else subst_empty
(line 123): dict keys are numbers, so a string cell never matches. -/
def hospitalTypeLookup (v : PyVal) : String :=
  if notna v then
    match v with
    | PyVal.vint n => htLookup (n : Rat)
    | PyVal.vfloat q => htLookup q
    | _ => ""
  else ""

/-- String lookup in the ownership table. -/
def ownLookup (s : String) : String :=
  ((ownership_codes.find? (fun kv => kv.1 == s)).map Prod.snd).getD ""

/-- ownership_map.get(str(code).strip()) if pd.notna(code) else
subst_empty (line 124). -/
def ownershipLookup (v : PyVal) : String :=
  if notna v then ownLookup (pyStrip (pyStr v)) else ""

/-- One row of the facility metadata Excel table. -/
structure FacRow where
  provnum : PyVal
  facility_name : PyVal
  category_subtype_of_provider : PyVal
  type_of_control : PyVal
  city : PyVal
  state_code : PyVal
  zip_code : PyVal
  beds_total : PyVal
  deriving DecidableEq

/-- str(row.get(provnum_col)).strip(). -/
def facKey (r : FacRow) : String := pyStrip (pyStr r.provnum)

/-- str(row.get(name_col)).strip(). -/
def facName (r : FacRow) : String := pyStrip (pyStr r.facility_name)

/-- The guard of line 117: a row is kept only when its provnum is
nonblank and its facility name is nonblank and not the literal nan
text; otherwise the whole row is skipped. -/
def facKeep (r : FacRow) : Bool :=
  facKey r ≠ "" && facName r ≠ "" && facName r ≠ "nan"

/-- The facility metadata record built for one kept row. -/
structure FacilityInfo where
  name : String
  city : String
  state : String
  zip_code : String
  beds_total : Int
  hospital_type : String
  ownership : String
  deriving DecidableEq

def mkFacilityInfo (r : FacRow) : FacilityInfo :=
  { name := facName r
    city := if notna r.city then pyStrip (pyStr r.city) else ""
    state := if notna r.state_code then pyStrip (pyStr r.state_code) else ""
    zip_code := if notna r.zip_code then pyStrip (pyStr r.zip_code) else ""
    beds_total := if notna r.beds_total then pyToInt r.beds_total else 0
    hospital_type := hospitalTypeLookup r.category_subtype_of_provider
    ownership := ownershipLookup r.type_of_control }

/-- The row loop of load_facility_data (lines 112-134). -/
def buildFacilityMap (rows : List FacRow) : List (String × FacilityInfo) :=
  rows.foldl
    (fun acc r =>
      if facKeep r then alistSet acc (facKey r) (mkFacilityInfo r) else acc)
    []

/-- load_facility_data: the whole body sits in a try block whose
except clause returns an empty mapping, so a read or parse failure of
the Excel input degrades to the empty map. -/
def load_facility_data (input : Except String (List FacRow)) :
    List (String × FacilityInfo) :=
  match input with
  | Except.error _ => []
  | Except.ok rows => buildFacilityMap rows

/-- One row of the procedure-name (Web Addendum) Excel table. -/
structure ProcRow where
  hcpcs_code : PyVal
  short_descriptor : PyVal
  deriving DecidableEq

/-- str(row.get(code_col)).strip() for a procedure-name row. -/
def procKey (r : ProcRow) : String := pyStrip (pyStr r.hcpcs_code)

/-- str(row.get(descriptor_col)).strip(). -/
def procDesc (r : ProcRow) : String := pyStrip (pyStr r.short_descriptor)

/-- The guard of line 157: keep only rows whose trimmed code and
descriptor are nonblank and not the literal nan text. -/
def procKeep (r : ProcRow) : Bool :=
  procKey r ≠ "" && procDesc r ≠ "" && procKey r ≠ "nan" && procDesc r ≠ "nan"

/-- The row loop of load_procedure_names (lines 152-158). -/
def buildProcedureNames (rows : List ProcRow) : List (String × String) :=
  rows.foldl
    (fun acc r =>
      if procKeep r then alistSet acc (procKey r) (procDesc r) else acc)
    []

/-- load_procedure_names with its try/except returning the empty map
on read or parse failure. -/
def load_procedure_names (input : Except String (List ProcRow)) :
    List (String × String) :=
  match input with
  | Except.error _ => []
  | Except.ok rows => buildProcedureNames rows

/-- One row of the Service Category Xwalk Excel table. -/
structure SvcRow where
  hcpcs_code : PyVal
  service_category : PyVal
  cms_shoppable : PyVal
  deriving DecidableEq

/-- The row loop of load_service_categories (lines 176-194): builds
the category map, the shoppable map (value uppercased), and the
lexicographically sorted list of distinct category labels. -/
def buildServiceCategories (rows : List SvcRow) :
    List (String × String) × List (String × String) × List String :=
  let step :=
    fun (acc : List (String × String) × List (String × String) × List String) (r : SvcRow) =>
      let code := pyStrip (pyStr r.hcpcs_code)
      let category := pyStrip (pyStr r.service_category)
      let shoppable := (pyStrip (pyStr r.cms_shoppable)).toUpper
      if code ≠ "" && code ≠ "nan" then
        let cm := if category ≠ "" && category ≠ "nan"
          then alistSet acc.1 code category else acc.1
        let cats := if category ≠ "" && category ≠ "nan"
          then (if acc.2.2.contains category then acc.2.2 else acc.2.2 ++ [category])
          else acc.2.2
        let sm := if shoppable ≠ "" && shoppable ≠ "NAN"
          then alistSet acc.2.1 code shoppable else acc.2.1
        (cm, sm, cats)
      else acc
  let folded := rows.foldl step ([], [], [])
  (folded.1, folded.2.1, (folded.2.2.mergeSort (fun a b => a ≤ b)))

/-- load_service_categories with its try/except returning empty maps
and an empty category list on read or parse failure. -/
def load_service_categories (input : Except String (List SvcRow)) :
    List (String × String) × List (String × String) × List String :=
  match input with
  | Except.error _ => ([], [], [])
  | Except.ok rows => buildServiceCategories rows

/- ===================================================================
   Merge and aggregate engine: process_and_export_data
   (process_data.py lines 204-269).
   =================================================================== -/

/-- One unified hospital record (lines 239-259): facility metadata
left-joined with defaults, the per-procedure breakdown, and the
facility summary with monetary totals rounded at emission. -/
structure HospitalRecord where
  name : String
  provnum : String
  city : String
  state : String
  zip_code : String
  beds_total : Int
  hospital_type : String
  ownership : String
  procedures : List (String × ProcStat)
  summary_total_volume : Int
  summary_total_charges : Rat
  summary_total_cost : Rat
  summary_total_paid : Rat
  avg_charge_per_case : Rat
  deriving DecidableEq

/-- facility_data.get(provnum, empty_dict) followed by .get of each
field with its default: a present facility contributes its fields, an
absent one yields the synthesized name and empty or zero defaults. -/
def mkHospitalRecord (facility_data : List (String × FacilityInfo))
    (provnum : String) (d : HData) : HospitalRecord :=
  let info := alistGet? facility_data provnum
  { name := match info with
      | some fi => fi.name
      | none => "Hospital " ++ provnum
    provnum := provnum
    city := match info with | some fi => fi.city | none => ""
    state := match info with | some fi => fi.state | none => ""
    zip_code := match info with | some fi => fi.zip_code | none => ""
    beds_total := match info with | some fi => fi.beds_total | none => 0
    hospital_type := match info with | some fi => fi.hospital_type | none => ""
    ownership := match info with | some fi => fi.ownership | none => ""
    procedures := d.procedures
    summary_total_volume := d.total_volume
    summary_total_charges := round2 d.total_charges
    summary_total_cost := round2 d.total_cost
    summary_total_paid := round2 d.total_paid
    avg_charge_per_case :=
      round2 (if 0 < d.total_volume then d.total_charges / (d.total_volume : Rat) else 0) }

/-- The hospitals section of the output: one record per facility of
the extractor output, in its dict order (lines 236-259). -/
def exportHospitals (facility_data : List (String × FacilityInfo))
    (hospitals_data : List (String × HData)) : List (String × HospitalRecord) :=
  hospitals_data.map (fun pd => (pd.1, mkHospitalRecord facility_data pd.1 pd.2))

/-- procedure_codes: the deduplicated union of every procedure code
seen across all facilities (lines 224-228; Python builds a set, so
only membership is meaningful). -/
def procedureCodes (hospitals_data : List (String × HData)) : List String :=
  ((hospitals_data.map (fun pd => pd.2.procedures.map Prod.fst)).flatten).dedup

/-- The unified artifact (lines 222-233). -/
structure OutputData where
  hospitals : List (String × HospitalRecord)
  procedure_codes : List String
  procedure_names : List (String × String)
  service_categories : List String
  service_category_map : List (String × String)
  shoppable_map : List (String × String)
  deriving DecidableEq

/-- process_and_export_data on parsed pricing rows and the three
reference inputs (each either a parsed table or a read failure). -/
def process_and_export_data (rows : List Row)
    (facIn : Except String (List FacRow))
    (procIn : Except String (List ProcRow))
    (svcIn : Except String (List SvcRow)) : OutputData :=
  let hospitals_data := load_hospital_price_data rows
  let facility_data := load_facility_data facIn
  let procedure_names := load_procedure_names procIn
  let svc := load_service_categories svcIn
  { hospitals := exportHospitals facility_data hospitals_data
    procedure_codes := procedureCodes hospitals_data
    procedure_names := procedure_names
    service_categories := svc.2.2
    service_category_map := svc.1
    shoppable_map := svc.2.1 }

/- ===================================================================
   Chunk partitioner: split_data.py.
   =================================================================== -/

/-- chunk_size = 1000 (line 33). -/
def chunk_size : Nat := 1000

/-- The slicing loop for i in range(0, len(items), n): successive
slices items[i : i + n]. -/
def chunksOf {α : Type u} (n : Nat) (l : List α) : List (List α) :=
  if l.isEmpty = true ∨ n = 0 then []
  else l.take n :: chunksOf n (l.drop n)
termination_by l.length
decreasing_by
  rename_i h
  push_neg at h
  have h1 : 0 < l.length := by
    cases l with
    | nil => exact absurd rfl h.1
    | cons a t => simp
  have h2 : (l.drop n).length = l.length - n := List.length_drop n l
  omega

/-- The hospital items sliced into chunks of 1000. -/
def splitHospitals {α : Type u} (hs : List (String × α)) : List (List (String × α)) :=
  chunksOf chunk_size hs

/-- Zero padding of the chunk number to width 3 (03d format). -/
def pad3 (n : Nat) : String :=
  let s := toString n
  String.mk (List.replicate (3 - s.length) '0') ++ s

/-- The chunk file name hospitals_NNN.json (line 42). -/
def chunkFileName (i : Nat) : String :=
  "hospitals_" ++ pad3 i ++ ".json"

/-- One entry of chunks_info (lines 49-53).  The on-disk size_mb field
depends on the byte serialization and is not modelled. -/
structure ChunkInfo where
  file : String
  hospitals : Nat
  deriving DecidableEq

/-- chunks_info accumulated over the slicing loop. -/
def chunksInfo {α : Type u} (hs : List (String × α)) : List ChunkInfo :=
  (splitHospitals hs).enum.map (fun ic => ⟨chunkFileName ic.1, ic.2.length⟩)

/-- index.json (lines 58-62). -/
structure ChunkIndex where
  total_hospitals : Nat
  chunk_size : Nat
  chunks : List ChunkInfo
  deriving DecidableEq

def chunkIndex {α : Type u} (hs : List (String × α)) : ChunkIndex :=
  { total_hospitals := hs.length
    chunk_size := chunk_size
    chunks := chunksInfo hs }

/-- The example pricing row of the spec (section 8). -/
def sampleRow : Row := ⟨"001", "99213", 10, 1000, 600, 700⟩

/-- A second row for the same facility and procedure code, to exercise
the duplicate-row behaviour. -/
def dupRow : Row := ⟨"001", "99213", 5, 500, 300, 350⟩

/-- A 2500-entry hospitals mapping, for the chunking example of the
spec. -/
def hs2500 : List (String × Nat) := (List.range 2500).map (fun i => (toString i, 0))

/-- A raw pricing row with a non-numeric volume field. -/
def badRaw : RawRow := ⟨"001", "99213", "abc", "", "", ""⟩

/-- A facility metadata row with a missing (NaN) facility name but
populated city and bed data. -/
def badFacRow : FacRow :=
  ⟨PyVal.vstr "77777", PyVal.vnone, PyVal.vint 1, PyVal.vstr "01",
    PyVal.vstr "Springfield", PyVal.vstr "IL", PyVal.vstr "62701",
    PyVal.vint 120⟩

/-- A pricing row whose procedure code has no entry in the
procedure-name reference table. -/
def unkRow : Row := ⟨"001", "X0001", 1, 0, 0, 0⟩

/- ===================================================================
   Helper lemmas.
   =================================================================== -/

section Helpers

variable {α : Type u}

theorem alistGet?_set_self (l : List (String × α)) (k : String) (v : α) :
    alistGet? (alistSet l k v) k = some v := by
  induction l with
  | nil => simp [alistSet, alistGet?]
  | cons kv t ih =>
      obtain ⟨k', v'⟩ := kv
      by_cases h : k' = k
      · subst h; simp [alistSet, alistGet?]
      · simp [alistSet, alistGet?, h, ih]

theorem alistGet?_set_ne (l : List (String × α)) (k k' : String) (v : α)
    (h : k ≠ k') : alistGet? (alistSet l k v) k' = alistGet? l k' := by
  induction l with
  | nil => simp [alistSet, alistGet?, h]
  | cons kv t ih =>
      obtain ⟨k0, v0⟩ := kv
      by_cases h0 : k0 = k
      · subst h0; simp [alistSet, alistGet?, h]
      · simp only [alistSet, if_neg h0]
        by_cases h1 : k0 = k'
        · subst h1; simp [alistGet?]
        · simp [alistGet?, h1, ih]

theorem buildAList_concat (l : List (String × α)) (kv : String × α) :
    buildAList (l ++ [kv]) = alistSet (buildAList l) kv.1 kv.2 := by
  simp [buildAList, List.foldl_append]

theorem alistGet?_buildAList (l : List (String × α)) (k : String) :
    alistGet? (buildAList l) k
      = ((l.filter (fun p => p.1 == k)).getLast?).map Prod.snd := by
  induction l using List.reverseRecOn with
  | nil => simp [buildAList, alistGet?]
  | append_singleton t kv ih =>
      rw [buildAList_concat, List.filter_append]
      by_cases h : kv.1 = k
      · simp only [List.filter_cons, List.filter_nil, h, beq_self_eq_true,
          if_true, cond_true]
        rw [alistGet?_set_self]
        simp
      · have hb : (kv.1 == k) = false := beq_eq_false_iff_ne.mpr h
        simp only [List.filter_cons, List.filter_nil, hb, cond_false]
        rw [alistGet?_set_ne _ _ _ _ h, ih]
        simp

theorem alistSet_of_not_mem (l : List (String × α)) (k : String) (v : α)
    (h : k ∉ l.map Prod.fst) : alistSet l k v = l ++ [(k, v)] := by
  induction l with
  | nil => simp [alistSet]
  | cons kv t ih =>
      simp only [List.map_cons, List.mem_cons] at h
      push_neg at h
      simp [alistSet, Ne.symm h.1, ih h.2]

theorem buildAList_of_nodup (l : List (String × α))
    (h : (l.map Prod.fst).Nodup) : buildAList l = l := by
  induction l using List.reverseRecOn with
  | nil => simp [buildAList]
  | append_singleton t kv ih =>
      rw [buildAList_concat]
      simp only [List.map_append, List.map_cons, List.map_nil] at h
      have h1 : (t.map Prod.fst).Nodup := (List.nodup_append.mp h).1
      have h2 : kv.1 ∉ t.map Prod.fst := by
        intro hmem
        exact (List.disjoint_right.mp (List.nodup_append.mp h).2.2) (by simp) hmem
      rw [ih h1, alistSet_of_not_mem t kv.1 kv.2 h2]

theorem nodup_snd_of_fst_const {β : Type u} (l : List (α × β)) (a : α)
    (hconst : ∀ x ∈ l, x.1 = a) (hnd : l.Nodup) : (l.map Prod.snd).Nodup := by
  induction l with
  | nil => simp
  | cons x t ih =>
      simp only [List.map_cons, List.nodup_cons] at *
      refine ⟨?_, ih (fun y hy => hconst y (List.mem_cons_of_mem _ hy)) hnd.2⟩
      intro hmem
      obtain ⟨y, hy, hxy⟩ := List.mem_map.mp hmem
      have hx : x.1 = a := hconst x (List.mem_cons_self _ _)
      have hy1 : y.1 = a := hconst y (List.mem_cons_of_mem _ hy)
      have : y = x := by
        obtain ⟨x1, x2⟩ := x; obtain ⟨y1, y2⟩ := y
        simp only at hx hy1 hxy
        simp [hx, hy1, hxy]
      exact hnd.1 (this ▸ hy)

theorem qRoundHalfEven_nonneg (q : Rat) (h : 0 ≤ q) : 0 ≤ qRoundHalfEven q := by
  have hf : 0 ≤ ⌊q⌋ := Int.floor_nonneg.mpr h
  unfold qRoundHalfEven
  dsimp only
  split_ifs <;> omega

theorem round2_nonneg (q : Rat) (h : 0 ≤ q) : 0 ≤ round2 q := by
  unfold round2
  have h1 : 0 ≤ qRoundHalfEven (q * 100) :=
    qRoundHalfEven_nonneg _ (by positivity)
  have h2 : (0 : Rat) ≤ (qRoundHalfEven (q * 100) : Rat) := by exact_mod_cast h1
  positivity

theorem round2_zero : round2 0 = 0 := by
  unfold round2 qRoundHalfEven
  norm_num

theorem mem_of_getLast?_eq {l : List α} {a : α} (h : l.getLast? = some a) :
    a ∈ l := by
  induction l using List.reverseRecOn with
  | nil => simp at h
  | append_singleton t b ih =>
      rw [List.getLast?_concat] at h
      cases h
      simp

theorem load_concat (rows : List Row) (r : Row) :
    load_hospital_price_data (rows ++ [r])
      = processRow (load_hospital_price_data rows) r := by
  simp [load_hospital_price_data, List.foldl_append]

theorem rowsFor_concat (rows : List Row) (r : Row) (p : String) :
    rowsFor (rows ++ [r]) p
      = rowsFor rows p ++ (if r.provnum = p then [r] else []) := by
  by_cases h : r.provnum = p
  · simp [rowsFor, List.filter_append, h]
  · simp [rowsFor, List.filter_append, h]

theorem facOf_nil : facOf [] = emptyHData := rfl

theorem updateHData_facOf (rs : List Row) (r : Row) :
    updateHData (facOf rs) r = facOf (rs ++ [r]) := by
  simp only [updateHData, facOf, List.map_append, List.map_cons, List.map_nil,
    List.sum_append, List.sum_cons, List.sum_nil, add_zero, buildAList_concat]

theorem load_get (rows : List Row) (p : String) :
    alistGet? (load_hospital_price_data rows) p
      = if rowsFor rows p = [] then none else some (facOf (rowsFor rows p)) := by
  induction rows using List.reverseRecOn with
  | nil => simp [load_hospital_price_data, rowsFor, alistGet?]
  | append_singleton t r ih =>
      rw [load_concat]
      by_cases hp : r.provnum = p
      · subst hp
        have hrf : rowsFor (t ++ [r]) r.provnum = rowsFor t r.provnum ++ [r] := by
          rw [rowsFor_concat]; simp
        rw [hrf]
        rw [show processRow (load_hospital_price_data t) r
            = alistSet (load_hospital_price_data t) r.provnum
                (updateHData
                  ((alistGet? (load_hospital_price_data t) r.provnum).getD emptyHData) r)
          from rfl]
        rw [alistGet?_set_self, ih]
        have hne : rowsFor t r.provnum ++ [r] ≠ [] := by simp
        rw [if_neg hne]
        by_cases he : rowsFor t r.provnum = []
        · rw [if_pos he, he]
          simp [facOf_nil ▸ updateHData_facOf [] r]
        · rw [if_neg he]
          simp [updateHData_facOf]
      · have hrf : rowsFor (t ++ [r]) p = rowsFor t p := by
          rw [rowsFor_concat]; simp [hp]
        rw [hrf]
        rw [show processRow (load_hospital_price_data t) r
            = alistSet (load_hospital_price_data t) r.provnum
                (updateHData
                  ((alistGet? (load_hospital_price_data t) r.provnum).getD emptyHData) r)
          from rfl]
        rw [alistGet?_set_ne _ _ _ _ hp, ih]

theorem alistGet?_mapVals {β : Type u} (f : String → α → β)
    (l : List (String × α)) (k : String) :
    alistGet? (l.map (fun pd => (pd.1, f pd.1 pd.2))) k
      = (alistGet? l k).map (f k) := by
  induction l with
  | nil => simp [alistGet?]
  | cons kv t ih =>
      obtain ⟨k0, v0⟩ := kv
      by_cases h : k0 = k
      · subst h; simp [alistGet?]
      · simp [alistGet?, h, ih]

theorem chunksOf_nil (n : Nat) : chunksOf n ([] : List α) = [] := by
  rw [chunksOf]
  simp

theorem chunksOf_eq_cons (n : Nat) (l : List α) (hl : l ≠ []) (hn : n ≠ 0) :
    chunksOf n l = l.take n :: chunksOf n (l.drop n) := by
  rw [chunksOf]
  rw [if_neg]
  push_neg
  exact ⟨by simpa [List.isEmpty_iff] using hl, hn⟩

theorem chunksOf_flatten (n : Nat) (hn : 0 < n) (l : List α) :
    (chunksOf n l).flatten = l := by
  rcases eq_or_ne l [] with h | h
  · rw [h, chunksOf_nil]
    rfl
  · rw [chunksOf_eq_cons n l h (Nat.pos_iff_ne_zero.mp hn), List.flatten_cons,
      chunksOf_flatten n hn (l.drop n), List.take_append_drop]
termination_by l.length
decreasing_by
  have h1 : 0 < l.length := List.length_pos.mpr h
  have h2 : (l.drop n).length = l.length - n := List.length_drop n l
  omega

theorem alistGet?_set (l : List (String × α)) (k c : String) (v : α) :
    alistGet? (alistSet l k v) c = if k = c then some v else alistGet? l c := by
  by_cases h : k = c
  · subst h; rw [alistGet?_set_self, if_pos rfl]
  · rw [alistGet?_set_ne _ _ _ _ h, if_neg h]

theorem parseIntField_error (s : String) (h1 : s ≠ "") (h2 : parseInt? s = none) :
    parseIntField s = Except.error ("invalid literal for int: " ++ s) := by
  simp [parseIntField, h1, h2]

theorem parseFloatField_error (s : String) (h1 : s ≠ "")
    (h2 : parseFloat? s = none) :
    parseFloatField s
      = Except.error ("could not convert string to float: " ++ s) := by
  simp [parseFloatField, h1, h2]

theorem parseRow_error_of_malformed (r : RawRow) (h : rawRowMalformed r) :
    ∃ e, parseRow r = Except.error e := by
  rcases h with ⟨h1, h2⟩ | ⟨h1, h2⟩ | ⟨h1, h2⟩ | ⟨h1, h2⟩
  · exact ⟨_, by unfold parseRow; rw [parseIntField_error _ h1 h2]; rfl⟩
  · cases hv : parseIntField r.volume with
    | error e => exact ⟨e, by unfold parseRow; rw [hv]; rfl⟩
    | ok v =>
        refine ⟨"could not convert string to float: " ++ r.TotalCharges, ?_⟩
        unfold parseRow
        rw [hv]
        show parseFloatField r.TotalCharges >>= _ = _
        rw [parseFloatField_error _ h1 h2]
        rfl
  · cases hv : parseIntField r.volume with
    | error e => exact ⟨e, by unfold parseRow; rw [hv]; rfl⟩
    | ok v =>
        cases hc : parseFloatField r.TotalCharges with
        | error e =>
            refine ⟨e, ?_⟩
            unfold parseRow
            rw [hv]
            show parseFloatField r.TotalCharges >>= _ = _
            rw [hc]
            rfl
        | ok tc =>
            refine ⟨"could not convert string to float: " ++ r.TotalCost, ?_⟩
            unfold parseRow
            rw [hv]
            show parseFloatField r.TotalCharges >>= _ = _
            rw [hc]
            show parseFloatField r.TotalCost >>= _ = _
            rw [parseFloatField_error _ h1 h2]
            rfl
  · cases hv : parseIntField r.volume with
    | error e => exact ⟨e, by unfold parseRow; rw [hv]; rfl⟩
    | ok v =>
        cases hc : parseFloatField r.TotalCharges with
        | error e =>
            refine ⟨e, ?_⟩
            unfold parseRow
            rw [hv]
            show parseFloatField r.TotalCharges >>= _ = _
            rw [hc]
            rfl
        | ok tc =>
            cases hk : parseFloatField r.TotalCost with
            | error e =>
                refine ⟨e, ?_⟩
                unfold parseRow
                rw [hv]
                show parseFloatField r.TotalCharges >>= _ = _
                rw [hc]
                show parseFloatField r.TotalCost >>= _ = _
                rw [hk]
                rfl
            | ok tk =>
                refine ⟨"could not convert string to float: " ++ r.TotalPaid, ?_⟩
                unfold parseRow
                rw [hv]
                show parseFloatField r.TotalCharges >>= _ = _
                rw [hc]
                show parseFloatField r.TotalCost >>= _ = _
                rw [hk]
                show parseFloatField r.TotalPaid >>= _ = _
                rw [parseFloatField_error _ h1 h2]
                rfl

theorem load_raw_error_aux (r : RawRow) (hbad : rawRowMalformed r) :
    ∀ (raws : List RawRow), r ∈ raws → ∀ acc,
      ∃ e, (raws.foldlM (fun acc raw => do
        let row ← parseRow raw
        Except.ok (processRow acc row)) acc) = Except.error e := by
  intro raws
  induction raws with
  | nil => intro hmem; simp at hmem
  | cons h t ih =>
      intro hmem acc
      rcases List.mem_cons.mp hmem with rfl | hmem'
      · obtain ⟨e, he⟩ := parseRow_error_of_malformed r hbad
        refine ⟨e, ?_⟩
        rw [List.foldlM_cons]
        show ((parseRow r >>= fun row => Except.ok (processRow acc row)) >>= _) = _
        rw [he]
        rfl
      · cases hp : parseRow h with
        | error e =>
            refine ⟨e, ?_⟩
            rw [List.foldlM_cons]
            show ((parseRow h >>= fun row => Except.ok (processRow acc row)) >>= _) = _
            rw [hp]
            rfl
        | ok row =>
            obtain ⟨e, he⟩ := ih hmem' (processRow acc row)
            refine ⟨e, ?_⟩
            rw [List.foldlM_cons]
            show ((parseRow h >>= fun row => Except.ok (processRow acc row)) >>= _) = _
            rw [hp]
            exact he

theorem foldl_upsert_get_pred {γ : Type u} {β : Type u} (g : γ → Bool)
    (key : γ → String) (val : γ → β) (P : β → Prop)
    (hval : ∀ x, g x = true → P (val x)) (c : String) :
    ∀ (rows : List γ) (acc : List (String × β)),
      (∀ d, alistGet? acc c = some d → P d) →
      ∀ d, alistGet? (rows.foldl
          (fun a x => if g x then alistSet a (key x) (val x) else a) acc) c
        = some d → P d := by
  intro rows
  induction rows with
  | nil =>
      intro acc hacc
      simpa using hacc
  | cons x t ih =>
      intro acc hacc d
      rw [List.foldl_cons]
      by_cases hg : g x = true
      · rw [if_pos hg]
        refine ih (alistSet acc (key x) (val x)) ?_ d
        intro e he
        rw [alistGet?_set] at he
        by_cases hk : key x = c
        · rw [if_pos hk] at he
          cases he
          exact hval x hg
        · rw [if_neg hk] at he
          exact hacc e he
      · rw [if_neg hg]
        exact ih acc hacc d

theorem foldl_upsert_get_none {γ : Type u} {β : Type u} (g : γ → Bool)
    (key : γ → String) (val : γ → β) (c : String) :
    ∀ (rows : List γ) (acc : List (String × β)),
      alistGet? acc c = none →
      (∀ x ∈ rows, g x = true → key x ≠ c) →
      alistGet? (rows.foldl
        (fun a x => if g x then alistSet a (key x) (val x) else a) acc) c
        = none := by
  intro rows
  induction rows with
  | nil =>
      intro acc hacc _
      simpa using hacc
  | cons x t ih =>
      intro acc hacc hrows
      rw [List.foldl_cons]
      by_cases hg : g x = true
      · rw [if_pos hg]
        refine ih (alistSet acc (key x) (val x)) ?_
          (fun y hy => hrows y (List.mem_cons_of_mem _ hy))
        rw [alistGet?_set,
          if_neg (hrows x (List.mem_cons_self _ _) hg)]
        exact hacc
      · rw [if_neg hg]
        exact ih acc hacc (fun y hy => hrows y (List.mem_cons_of_mem _ hy))

theorem foldl_upsert_filter {γ : Type u} {β : Type u} (g : γ → Bool)
    (key : γ → String) (val : γ → β) :
    ∀ (rows : List γ) (acc : List (String × β)),
      rows.foldl (fun a x => if g x then alistSet a (key x) (val x) else a) acc
        = (rows.filter g).foldl
            (fun a x => if g x then alistSet a (key x) (val x) else a) acc := by
  intro rows
  induction rows with
  | nil => intro acc; rfl
  | cons x t ih =>
      intro acc
      by_cases hg : g x = true
      · rw [List.filter_cons_of_pos hg, List.foldl_cons, List.foldl_cons, if_pos hg]
        exact ih (alistSet acc (key x) (val x))
      · rw [List.filter_cons_of_neg hg, List.foldl_cons, if_neg hg]
        exact ih acc

theorem mkHospitalRecord_of_none (fac : List (String × FacilityInfo))
    (p : String) (d : HData) (h : alistGet? fac p = none) :
    (mkHospitalRecord fac p d).name = "Hospital " ++ p ∧
    (mkHospitalRecord fac p d).city = "" ∧
    (mkHospitalRecord fac p d).state = "" ∧
    (mkHospitalRecord fac p d).zip_code = "" ∧
    (mkHospitalRecord fac p d).beds_total = 0 ∧
    (mkHospitalRecord fac p d).hospital_type = "" ∧
    (mkHospitalRecord fac p d).ownership = "" ∧
    (mkHospitalRecord fac p d).procedures = d.procedures := by
  refine ⟨?_, ?_, ?_, ?_, ?_, ?_, ?_, ?_⟩ <;> simp [mkHospitalRecord, h]

end Helpers

/- ===================================================================
   Claim theorems.
   =================================================================== -/

/-- C2: every ProcedureStat average (avg_charge, avg_cost, avg_paid)
equals the corresponding total divided by volume when volume is
positive (at the two-decimal emission rounding the spec prescribes for
monetary outputs), equals 0 when volume is 0 with no exception raised
(the embedding is total by construction), and, under the data-model
constraint that the monetary amounts are non-negative, is never
negative. -/
theorem c2_procstat_averages (r : Row)
    (hc : 0 ≤ r.total_charges) (hk : 0 ≤ r.total_cost) (hp : 0 ≤ r.total_paid) :
    ((0 < r.volume →
        (mkProcStat r).avg_charge = round2 (r.total_charges / (r.volume : Rat)) ∧
        (mkProcStat r).avg_cost = round2 (r.total_cost / (r.volume : Rat)) ∧
        (mkProcStat r).avg_paid = round2 (r.total_paid / (r.volume : Rat))) ∧
      (r.volume = 0 →
        (mkProcStat r).avg_charge = 0 ∧
        (mkProcStat r).avg_cost = 0 ∧
        (mkProcStat r).avg_paid = 0)) ∧
    (0 ≤ (mkProcStat r).avg_charge ∧
      0 ≤ (mkProcStat r).avg_cost ∧
      0 ≤ (mkProcStat r).avg_paid) := by
  by_cases hv : 0 < r.volume
  · have hvq : (0 : Rat) < (r.volume : Rat) := by exact_mod_cast hv
    refine ⟨⟨fun _ => ?_, fun h0 => absurd (h0 ▸ hv) (by simp)⟩, ?_⟩
    · simp [mkProcStat, hv]
    · refine ⟨?_, ?_, ?_⟩ <;>
        · simp only [mkProcStat, if_pos hv]
          exact round2_nonneg _ (div_nonneg (by assumption) hvq.le)
  · refine ⟨⟨fun h => absurd h hv, fun _ => ?_⟩, ?_⟩
    · simp [mkProcStat, hv, round2_zero]
    · simp [mkProcStat, hv, round2_zero]

/-- Witness for C2 at the example row of the spec. -/
theorem c2_procstat_averages_witness :
    ((0 ≤ sampleRow.total_charges ∧ 0 ≤ sampleRow.total_cost ∧
        0 ≤ sampleRow.total_paid) ∧
      ((0 < sampleRow.volume →
          (mkProcStat sampleRow).avg_charge
            = round2 (sampleRow.total_charges / (sampleRow.volume : Rat)) ∧
          (mkProcStat sampleRow).avg_cost
            = round2 (sampleRow.total_cost / (sampleRow.volume : Rat)) ∧
          (mkProcStat sampleRow).avg_paid
            = round2 (sampleRow.total_paid / (sampleRow.volume : Rat))) ∧
        (sampleRow.volume = 0 →
          (mkProcStat sampleRow).avg_charge = 0 ∧
          (mkProcStat sampleRow).avg_cost = 0 ∧
          (mkProcStat sampleRow).avg_paid = 0)) ∧
      (0 ≤ (mkProcStat sampleRow).avg_charge ∧
        0 ≤ (mkProcStat sampleRow).avg_cost ∧
        0 ≤ (mkProcStat sampleRow).avg_paid)) :=
  ⟨⟨by norm_num [sampleRow], by norm_num [sampleRow], by norm_num [sampleRow]⟩,
    c2_procstat_averages sampleRow (by norm_num [sampleRow])
      (by norm_num [sampleRow]) (by norm_num [sampleRow])⟩

/-- C1: when the extract holds duplicate rows for one
(facility_id, procedure_code) pair, the stored per-procedure
breakdown for that pair is the one computed from the last such row,
while the facility running totals are the sums over every row seen
for that facility, duplicates included. -/
theorem c1_duplicate_rows (rows : List Row) (p c : String) (r : Row)
    (hlast : (rows.filter
        (fun x => x.provnum == p && x.category == c)).getLast? = some r) :
    ∃ h, alistGet? (load_hospital_price_data rows) p = some h ∧
      alistGet? h.procedures c = some (mkProcStat r) ∧
      h.total_volume = ((rowsFor rows p).map Row.volume).sum ∧
      h.total_charges = ((rowsFor rows p).map Row.total_charges).sum ∧
      h.total_cost = ((rowsFor rows p).map Row.total_cost).sum ∧
      h.total_paid = ((rowsFor rows p).map Row.total_paid).sum := by
  have hrmem : r ∈ rows.filter (fun x => x.provnum == p && x.category == c) :=
    mem_of_getLast?_eq hlast
  rw [List.mem_filter] at hrmem
  obtain ⟨hrrows, hpred⟩ := hrmem
  rw [Bool.and_eq_true] at hpred
  have hrp : r.provnum = p := by
    have := hpred.1; simpa using this
  have hne : rowsFor rows p ≠ [] := by
    intro h0
    have hmem : r ∈ rowsFor rows p := by
      rw [rowsFor, List.mem_filter]
      exact ⟨hrrows, by simp [hrp]⟩
    rw [h0] at hmem
    simp at hmem
  refine ⟨facOf (rowsFor rows p), ?_, ?_, rfl, rfl, rfl, rfl⟩
  · rw [load_get, if_neg hne]
  · show alistGet?
        (buildAList ((rowsFor rows p).map (fun x => (x.category, mkProcStat x)))) c
        = some (mkProcStat r)
    rw [alistGet?_buildAList, List.filter_map]
    rw [show ((fun q : String × ProcStat => q.1 == c)
        ∘ (fun x : Row => (x.category, mkProcStat x)))
        = fun x : Row => x.category == c from rfl]
    rw [List.getLast?_map]
    have hff : (rowsFor rows p).filter (fun x => x.category == c)
        = rows.filter (fun x => x.provnum == p && x.category == c) := by
      rw [rowsFor, List.filter_filter]
      exact List.filter_congr (fun a _ => Bool.and_comm _ _)
    rw [hff, hlast]
    simp

/-- Witness for C1: two duplicate rows for facility 001 and code
99213; the breakdown shows the second row, the totals add both. -/
theorem c1_duplicate_rows_witness :
    (([sampleRow, dupRow].filter
        (fun x => x.provnum == "001" && x.category == "99213")).getLast?
      = some dupRow) ∧
    (∃ h, alistGet? (load_hospital_price_data [sampleRow, dupRow]) "001" = some h ∧
      alistGet? h.procedures "99213" = some (mkProcStat dupRow) ∧
      h.total_volume = ((rowsFor [sampleRow, dupRow] "001").map Row.volume).sum ∧
      h.total_charges
        = ((rowsFor [sampleRow, dupRow] "001").map Row.total_charges).sum ∧
      h.total_cost = ((rowsFor [sampleRow, dupRow] "001").map Row.total_cost).sum ∧
      h.total_paid = ((rowsFor [sampleRow, dupRow] "001").map Row.total_paid).sum) :=
  ⟨by decide, c1_duplicate_rows [sampleRow, dupRow] "001" "99213" dupRow (by decide)⟩

/-- C5: with no duplicate (facility_id, procedure_code) rows in the
source, the summary total_volume of every exported facility record
equals the sum of the volume fields of its per-procedure entries. -/
theorem c5_summary_volume (rows : List Row) (fac : List (String × FacilityInfo))
    (p : String) (rec : HospitalRecord)
    (hnodup : (rows.map (fun r => (r.provnum, r.category))).Nodup)
    (hrec : alistGet? (exportHospitals fac (load_hospital_price_data rows)) p
      = some rec) :
    rec.summary_total_volume = (rec.procedures.map (fun pc => pc.2.volume)).sum := by
  have h1 : alistGet? (exportHospitals fac (load_hospital_price_data rows)) p
      = (alistGet? (load_hospital_price_data rows) p).map
          (fun d => mkHospitalRecord fac p d) :=
    alistGet?_mapVals (fun k d => mkHospitalRecord fac k d) _ p
  rw [h1, load_get] at hrec
  by_cases hne : rowsFor rows p = []
  · rw [if_pos hne] at hrec
    simp at hrec
  · rw [if_neg hne] at hrec
    simp only [Option.map, Option.some.injEq] at hrec
    subst hrec
    have hsub : ((rowsFor rows p).map
        (fun x => (x.provnum, x.category))).Nodup :=
      (((List.filter_sublist rows).map _).nodup) hnodup
    have hconst : ∀ y ∈ (rowsFor rows p).map (fun x => (x.provnum, x.category)),
        y.1 = p := by
      intro y hy
      obtain ⟨x, hx, rfl⟩ := List.mem_map.mp hy
      have := (List.mem_filter.mp hx).2
      simpa using this
    have hcats : ((rowsFor rows p).map (fun x => x.category)).Nodup := by
      have := nodup_snd_of_fst_const _ p hconst hsub
      simpa [List.map_map, Function.comp] using this
    have hkeys : (((rowsFor rows p).map
        (fun x => (x.category, mkProcStat x))).map Prod.fst).Nodup := by
      simpa [List.map_map, Function.comp] using hcats
    show (facOf (rowsFor rows p)).total_volume
        = ((mkHospitalRecord fac p (facOf (rowsFor rows p))).procedures.map
            (fun pc => pc.2.volume)).sum
    rw [show (mkHospitalRecord fac p (facOf (rowsFor rows p))).procedures
        = (facOf (rowsFor rows p)).procedures from rfl]
    rw [show (facOf (rowsFor rows p)).procedures
        = buildAList ((rowsFor rows p).map (fun x => (x.category, mkProcStat x)))
      from rfl]
    rw [buildAList_of_nodup _ hkeys]
    rw [show (facOf (rowsFor rows p)).total_volume
        = ((rowsFor rows p).map Row.volume).sum from rfl]
    simp only [List.map_map]
    exact congrArg List.sum (List.map_congr_left (fun x _ => rfl)).symm

/-- Witness for C5 at a one-row extract. -/
theorem c5_summary_volume_witness :
    (([sampleRow].map (fun r => (r.provnum, r.category))).Nodup ∧
      alistGet? (exportHospitals [] (load_hospital_price_data [sampleRow])) "001"
        = some (mkHospitalRecord [] "001" (facOf [sampleRow]))) ∧
    (mkHospitalRecord [] "001" (facOf [sampleRow])).summary_total_volume
      = ((mkHospitalRecord [] "001" (facOf [sampleRow])).procedures.map
          (fun pc => pc.2.volume)).sum :=
  ⟨⟨by decide,
      by simp [exportHospitals, load_hospital_price_data, processRow,
        updateHData, emptyHData, facOf, buildAList, alistSet, alistGet?,
        sampleRow]⟩,
    c5_summary_volume [sampleRow] [] "001"
      (mkHospitalRecord [] "001" (facOf [sampleRow])) (by decide)
      (by simp [exportHospitals, load_hospital_price_data, processRow,
        updateHData, emptyHData, facOf, buildAList, alistSet, alistGet?,
        sampleRow])⟩

/-- C3: concatenating the chunks in order reproduces the hospitals
mapping exactly, hence the concatenated key lists equal the key list
of the unified mapping (no duplicates beyond those of the input, no
omissions); total_hospitals is the key count; the per-chunk counts in
the index sum to total_hospitals; and a 2500-entry mapping yields
exactly the three files 000, 001, 002 with 1000, 1000 and 500
entries. -/
theorem c3_chunking {α : Type u} (hs : List (String × α)) :
    ((splitHospitals hs).flatten = hs ∧
      ((splitHospitals hs).map (List.map Prod.fst)).flatten = hs.map Prod.fst ∧
      ((hs.map Prod.fst).Nodup →
        (((splitHospitals hs).map (List.map Prod.fst)).flatten).Nodup) ∧
      (chunkIndex hs).total_hospitals = (hs.map Prod.fst).length ∧
      ((chunkIndex hs).chunks.map ChunkInfo.hospitals).sum
        = (chunkIndex hs).total_hospitals) ∧
    (hs.length = 2500 →
      (chunkIndex hs).chunks.map ChunkInfo.file
          = ["hospitals_000.json", "hospitals_001.json", "hospitals_002.json"] ∧
      (chunkIndex hs).chunks.map ChunkInfo.hospitals = [1000, 1000, 500]) := by
  have hflat : (splitHospitals hs).flatten = hs :=
    chunksOf_flatten chunk_size (by norm_num [chunk_size]) hs
  have hkeys : ((splitHospitals hs).map (List.map Prod.fst)).flatten
      = hs.map Prod.fst := by
    rw [← List.map_flatten, hflat]
  have hinfo : (chunkIndex hs).chunks.map ChunkInfo.hospitals
      = (splitHospitals hs).map List.length := by
    show ((splitHospitals hs).enum.map
        (fun ic => ChunkInfo.mk (chunkFileName ic.1) ic.2.length)).map
          ChunkInfo.hospitals = _
    rw [List.map_map]
    have : (ChunkInfo.hospitals ∘ fun ic : Nat × List (String × α) =>
        ChunkInfo.mk (chunkFileName ic.1) ic.2.length)
        = (List.length ∘ Prod.snd) := rfl
    rw [this, ← List.map_map, List.enum_map_snd]
  refine ⟨⟨hflat, hkeys, ?_, ?_, ?_⟩, ?_⟩
  · intro hnd
    rw [hkeys]
    exact hnd
  · simp [chunkIndex]
  · rw [hinfo]
    show ((splitHospitals hs).map List.length).sum = hs.length
    rw [← List.length_flatten, hflat]
  · intro hlen
    have h0 : hs ≠ [] := by
      intro h
      rw [h] at hlen
      simp at hlen
    have hd1 : (hs.drop 1000).length = 1500 := by
      rw [List.length_drop, hlen]
    have hd2 : ((hs.drop 1000).drop 1000).length = 500 := by
      rw [List.length_drop, hd1]
    have hd3 : (((hs.drop 1000).drop 1000).drop 1000) = [] := by
      apply List.eq_nil_of_length_eq_zero
      rw [List.length_drop, hd2]
    have h1 : hs.drop 1000 ≠ [] := by
      intro h
      rw [h] at hd1
      simp at hd1
    have h2 : (hs.drop 1000).drop 1000 ≠ [] := by
      intro h
      rw [h] at hd2
      simp at hd2
    have hsplit : splitHospitals hs
        = [hs.take 1000, (hs.drop 1000).take 1000,
            ((hs.drop 1000).drop 1000).take 1000] := by
      show chunksOf 1000 hs = _
      rw [chunksOf_eq_cons 1000 hs h0 (by norm_num),
        chunksOf_eq_cons 1000 (hs.drop 1000) h1 (by norm_num),
        chunksOf_eq_cons 1000 ((hs.drop 1000).drop 1000) h2 (by norm_num),
        hd3, chunksOf_nil]
    have hl1 : (hs.take 1000).length = 1000 := by
      rw [List.length_take, hlen]; decide
    have hl2 : ((hs.drop 1000).take 1000).length = 1000 := by
      rw [List.length_take, hd1]; decide
    have hl3 : (((hs.drop 1000).drop 1000).take 1000).length = 500 := by
      rw [List.length_take, hd2]; decide
    constructor
    · show ((splitHospitals hs).enum.map
          (fun ic => ChunkInfo.mk (chunkFileName ic.1) ic.2.length)).map
            ChunkInfo.file = _
      rw [hsplit]
      simp only [List.enum, List.enumFrom, List.map_cons, List.map_nil]
      refine congrArg₂ _ ?_ (congrArg₂ _ ?_ (congrArg₂ _ ?_ rfl)) <;> decide
    · rw [hinfo, hsplit]
      simp only [List.map_cons, List.map_nil, hl1, hl2, hl3]

/-- Witness for C3 on a concrete 2500-entry mapping. -/
theorem c3_chunking_witness :
    hs2500.length = 2500 ∧
    ((chunkIndex hs2500).chunks.map ChunkInfo.file
        = ["hospitals_000.json", "hospitals_001.json", "hospitals_002.json"] ∧
      (chunkIndex hs2500).chunks.map ChunkInfo.hospitals = [1000, 1000, 500]) :=
  ⟨by simp [hs2500], (c3_chunking hs2500).2 (by simp [hs2500])⟩

/-- C4: a facility present in the pricing data but absent from the
facility metadata map still gets an exported record (never skipped),
with the synthesized name, empty city, state and zip, zero beds, and
empty hospital type and ownership; its procedure breakdown is kept. -/
theorem c4_missing_facility_defaults (fac : List (String × FacilityInfo))
    (hdata : List (String × HData)) (p : String) (d : HData)
    (hmiss : alistGet? fac p = none) (hd : alistGet? hdata p = some d) :
    alistGet? (exportHospitals fac hdata) p = some (mkHospitalRecord fac p d) ∧
    (mkHospitalRecord fac p d).name = "Hospital " ++ p ∧
    (mkHospitalRecord fac p d).city = "" ∧
    (mkHospitalRecord fac p d).state = "" ∧
    (mkHospitalRecord fac p d).zip_code = "" ∧
    (mkHospitalRecord fac p d).beds_total = 0 ∧
    (mkHospitalRecord fac p d).hospital_type = "" ∧
    (mkHospitalRecord fac p d).ownership = "" ∧
    (mkHospitalRecord fac p d).procedures = d.procedures := by
  have h1 : alistGet? (exportHospitals fac hdata) p
      = (alistGet? hdata p).map (fun x => mkHospitalRecord fac p x) :=
    alistGet?_mapVals (fun k x => mkHospitalRecord fac k x) hdata p
  refine ⟨?_, mkHospitalRecord_of_none fac p d hmiss⟩
  rw [h1, hd]
  rfl

/-- Witness for C4: facility XX has pricing data and no metadata. -/
theorem c4_missing_facility_defaults_witness :
    (alistGet? ([] : List (String × FacilityInfo)) "XX" = none ∧
      alistGet? [("XX", emptyHData)] "XX" = some emptyHData) ∧
    (alistGet? (exportHospitals [] [("XX", emptyHData)]) "XX"
        = some (mkHospitalRecord [] "XX" emptyHData) ∧
      (mkHospitalRecord [] "XX" emptyHData).name = "Hospital " ++ "XX" ∧
      (mkHospitalRecord [] "XX" emptyHData).city = "" ∧
      (mkHospitalRecord [] "XX" emptyHData).state = "" ∧
      (mkHospitalRecord [] "XX" emptyHData).zip_code = "" ∧
      (mkHospitalRecord [] "XX" emptyHData).beds_total = 0 ∧
      (mkHospitalRecord [] "XX" emptyHData).hospital_type = "" ∧
      (mkHospitalRecord [] "XX" emptyHData).ownership = "" ∧
      (mkHospitalRecord [] "XX" emptyHData).procedures = emptyHData.procedures) :=
  ⟨⟨by decide, by decide⟩,
    c4_missing_facility_defaults [] [("XX", emptyHData)] "XX" emptyHData
      (by decide) (by decide)⟩

/-- C6: a pricing row whose volume or monetary field is non-blank and
non-numeric makes the whole run fail: the extractor returns an error,
with no row-level recovery. -/
theorem c6_malformed_row_aborts (raws : List RawRow) (r : RawRow)
    (hmem : r ∈ raws) (hbad : rawRowMalformed r) :
    ∃ e, load_raw raws = Except.error e :=
  load_raw_error_aux r hbad raws hmem []

/-- Witness for C6 at a row with volume text abc. -/
theorem c6_malformed_row_aborts_witness :
    (badRaw ∈ [badRaw] ∧ rawRowMalformed badRaw) ∧
    (∃ e, load_raw [badRaw] = Except.error e) :=
  ⟨⟨by decide, by decide⟩,
    c6_malformed_row_aborts [badRaw] badRaw (by decide) (by decide)⟩

/-- C7: each reference loader returns its normal mapping on a parsed
table, and on a read or parse failure of its source returns the empty
mapping (and empty category list) instead of propagating the error. -/
theorem c7_loader_error_recovery :
    (∀ e : String,
      load_facility_data (Except.error e) = [] ∧
      load_procedure_names (Except.error e) = [] ∧
      load_service_categories (Except.error e) = ([], [], [])) ∧
    (∀ rowsF : List FacRow,
      load_facility_data (Except.ok rowsF) = buildFacilityMap rowsF) ∧
    (∀ rowsP : List ProcRow,
      load_procedure_names (Except.ok rowsP) = buildProcedureNames rowsP) ∧
    (∀ rowsS : List SvcRow,
      load_service_categories (Except.ok rowsS) = buildServiceCategories rowsS) :=
  ⟨fun _ => ⟨rfl, rfl, rfl⟩, fun _ => rfl, fun _ => rfl, fun _ => rfl⟩

/-- C8 counterexample: the claim that the numeric variant and the
string variant of the same code yield the same canonical label fails
on the code.  The hospital type table is keyed by numbers, so the
string variant of code 1 yields the empty label while the numeric
variant yields Short-Term Acute; the ownership lookup goes through
str(), so the numeric variant of code 01 yields the empty label while
the string variant yields its label. -/
theorem c8_lookup_counterexample :
    hospitalTypeLookup (PyVal.vint 1) = "Short-Term Acute" ∧
    hospitalTypeLookup (PyVal.vstr "1") = "" ∧
    ¬ hospitalTypeLookup (PyVal.vstr "1") = hospitalTypeLookup (PyVal.vint 1) ∧
    ownershipLookup (PyVal.vstr "01") = "Government, Federal" ∧
    ownershipLookup (PyVal.vint 1) = "" ∧
    ¬ ownershipLookup (PyVal.vint 1) = ownershipLookup (PyVal.vstr "01") := by
  decide

/-- C8 amended: both lookups are total, and any unknown code yields
the empty label rather than a missing key or an error; the integer and
float variants of the same numeric hospital-type code yield the same
label, but a string cell never matches the numeric hospital-type keys
(it yields the empty label), and ownership codes are matched by their
stripped string form only, so every table code yields its label as a
string while numeric cells match only if their str() form is a table
key. -/
theorem c8_amended_lookup_totality :
    (∀ n : Int, hospitalTypeLookup (PyVal.vint n)
        = hospitalTypeLookup (PyVal.vfloat (n : Rat))) ∧
    (∀ q : Rat, q ∉ hospital_type_codes.map Prod.fst →
        hospitalTypeLookup (PyVal.vfloat q) = "") ∧
    (∀ s : String, hospitalTypeLookup (PyVal.vstr s) = "") ∧
    hospitalTypeLookup PyVal.vnone = "" ∧
    (hospital_type_codes.all
        (fun kv => hospitalTypeLookup (PyVal.vfloat kv.1) == kv.2)) = true ∧
    (ownership_codes.all
        (fun kv => ownershipLookup (PyVal.vstr kv.1) == kv.2)) = true ∧
    (∀ s : String, pyStrip s ∉ ownership_codes.map Prod.fst →
        ownershipLookup (PyVal.vstr s) = "") ∧
    ownershipLookup PyVal.vnone = "" := by
  refine ⟨fun n => rfl, ?_, fun s => rfl, rfl, by decide, by decide, ?_, rfl⟩
  · intro q hq
    show htLookup q = ""
    rw [htLookup]
    have hfind : hospital_type_codes.find? (fun kv => kv.1 == q) = none := by
      rw [List.find?_eq_none]
      intro kv hkv
      simp only [beq_iff_eq]
      intro hk
      exact hq (List.mem_map.mpr ⟨kv, hkv, hk⟩)
    rw [hfind]
    rfl
  · intro s hs
    show ownLookup (pyStrip s) = ""
    rw [ownLookup]
    have hfind : ownership_codes.find? (fun kv => kv.1 == pyStrip s) = none := by
      rw [List.find?_eq_none]
      intro kv hkv
      simp only [beq_iff_eq]
      intro hk
      exact hs (List.mem_map.mpr ⟨kv, hkv, hk⟩)
    rw [hfind]
    rfl

/-- Witness for C8 amended at unknown codes 3 and ZZ. -/
theorem c8_amended_lookup_totality_witness :
    ((3 : Rat) ∉ hospital_type_codes.map Prod.fst ∧
      pyStrip "ZZ" ∉ ownership_codes.map Prod.fst) ∧
    (hospitalTypeLookup (PyVal.vfloat 3) = "" ∧
      ownershipLookup (PyVal.vstr "ZZ") = "") :=
  ⟨⟨by decide, by decide⟩,
    ⟨c8_amended_lookup_totality.2.1 3 (by decide),
      c8_amended_lookup_totality.2.2.2.2.2.2.1 "ZZ" (by decide)⟩⟩

/-- C9 counterexample: a procedure code that appears in
procedure_codes but has no entry in the procedure-name table is
absent from the procedure_names mapping (lookup gives none), not
mapped to the empty string. -/
theorem c9_procedure_names_counterexample :
    "X0001" ∈ (process_and_export_data [unkRow]
        (Except.ok []) (Except.ok []) (Except.ok [])).procedure_codes ∧
    alistGet? (process_and_export_data [unkRow]
        (Except.ok []) (Except.ok []) (Except.ok [])).procedure_names "X0001"
      = none := by
  constructor
  · decide
  · rfl

/-- C9 amended: procedure_names is the pass-through of the
procedure-name loader; every entry it does contain has a nonblank and
non-nan description, and a code inserted by no table row (in
particular any code with no known description) has no entry at all:
absent codes are omitted from the mapping rather than mapped to an
empty or null description. -/
theorem c9_amended_procedure_names (rows : List Row)
    (facIn : Except String (List FacRow)) (svcIn : Except String (List SvcRow))
    (procRows : List ProcRow) (c : String) :
    ((process_and_export_data rows facIn (Except.ok procRows) svcIn).procedure_names
        = buildProcedureNames procRows) ∧
    (∀ d, alistGet? (buildProcedureNames procRows) c = some d →
        d ≠ "" ∧ d ≠ "nan") ∧
    ((∀ r ∈ procRows, procKeep r = true → procKey r ≠ c) →
        alistGet? (buildProcedureNames procRows) c = none) := by
  refine ⟨rfl, ?_, ?_⟩
  · intro d hd
    refine foldl_upsert_get_pred procKeep procKey procDesc
      (fun d => d ≠ "" ∧ d ≠ "nan") ?_ c procRows [] (by intro d h; cases h) d hd
    intro x hx
    have hx' := hx
    rw [procKeep] at hx'
    simp only [Bool.and_eq_true, decide_eq_true_eq] at hx'
    exact ⟨hx'.1.1.2, hx'.2⟩
  · intro hall
    exact foldl_upsert_get_none procKeep procKey procDesc c procRows [] rfl hall

/-- Witness for C9 amended with an empty reference table. -/
theorem c9_amended_procedure_names_witness :
    (∀ r ∈ ([] : List ProcRow), procKeep r = true → procKey r ≠ "X0001") ∧
    alistGet? (buildProcedureNames []) "X0001" = none :=
  ⟨fun r hr => absurd hr (List.not_mem_nil r),
    (c9_amended_procedure_names [] (Except.ok []) (Except.ok []) [] "X0001").2.2
      (fun r hr => absurd hr (List.not_mem_nil r))⟩

/-- C10: a facility metadata row with a blank provnum, or a blank or
literal nan facility name, is dropped whole: the facility map is the
map built from the kept rows only, a facility all of whose rows are
dropped has no entry, and its unified record falls back to the
synthesized name and empty or zero defaults even though the dropped
row carried city, state, zip and bed data. -/
theorem c10_dropped_facility_rows (rows : List FacRow) (p : String) (d : HData)
    (hall : ∀ r ∈ rows, facKey r = p → facKeep r = false) :
    buildFacilityMap rows = buildFacilityMap (rows.filter facKeep) ∧
    alistGet? (buildFacilityMap rows) p = none ∧
    ((mkHospitalRecord (buildFacilityMap rows) p d).name = "Hospital " ++ p ∧
      (mkHospitalRecord (buildFacilityMap rows) p d).city = "" ∧
      (mkHospitalRecord (buildFacilityMap rows) p d).state = "" ∧
      (mkHospitalRecord (buildFacilityMap rows) p d).zip_code = "" ∧
      (mkHospitalRecord (buildFacilityMap rows) p d).beds_total = 0 ∧
      (mkHospitalRecord (buildFacilityMap rows) p d).hospital_type = "" ∧
      (mkHospitalRecord (buildFacilityMap rows) p d).ownership = "" ∧
      (mkHospitalRecord (buildFacilityMap rows) p d).procedures
        = d.procedures) := by
  have hnone : alistGet? (buildFacilityMap rows) p = none := by
    refine foldl_upsert_get_none facKeep facKey mkFacilityInfo p rows [] rfl ?_
    intro r hr hg hk
    rw [hall r hr hk] at hg
    cases hg
  exact ⟨foldl_upsert_filter facKeep facKey mkFacilityInfo rows [],
    hnone, mkHospitalRecord_of_none _ p d hnone⟩

/-- Witness for C10 at a row whose name cell is NaN but which carries
city, state, zip and bed data. -/
theorem c10_dropped_facility_rows_witness :
    (∀ r ∈ [badFacRow], facKey r = "77777" → facKeep r = false) ∧
    (buildFacilityMap [badFacRow]
        = buildFacilityMap ([badFacRow].filter facKeep) ∧
      alistGet? (buildFacilityMap [badFacRow]) "77777" = none ∧
      ((mkHospitalRecord (buildFacilityMap [badFacRow]) "77777" emptyHData).name
          = "Hospital " ++ "77777" ∧
        (mkHospitalRecord (buildFacilityMap [badFacRow]) "77777" emptyHData).city
          = "" ∧
        (mkHospitalRecord (buildFacilityMap [badFacRow]) "77777" emptyHData).state
          = "" ∧
        (mkHospitalRecord (buildFacilityMap [badFacRow]) "77777"
            emptyHData).zip_code = "" ∧
        (mkHospitalRecord (buildFacilityMap [badFacRow]) "77777"
            emptyHData).beds_total = 0 ∧
        (mkHospitalRecord (buildFacilityMap [badFacRow]) "77777"
            emptyHData).hospital_type = "" ∧
        (mkHospitalRecord (buildFacilityMap [badFacRow]) "77777"
            emptyHData).ownership = "" ∧
        (mkHospitalRecord (buildFacilityMap [badFacRow]) "77777"
            emptyHData).procedures = emptyHData.procedures)) :=
  ⟨by decide,
    c10_dropped_facility_rows [badFacRow] "77777" emptyHData (by decide)⟩

end CHD
